import Mathlib

/- Verification of the `claude-tools` repository.

A shallow embedding, in Lean 4, of the two command-line utilities in the
repository:

* `phased-implementation.py` — a control loop that repeatedly asks an
  external assistant for a phase-status report and executes the phase at
  `nextPhaseIndex` until all phases are done, a failure occurs, or a
  wall-clock budget is exhausted;
* `voice/` — a file watcher that polls a transcription file, diffs its
  content, parses the delta with an external assistant
  (`ClaudeParser.parse`), and dispatches the resulting commands
  (`CommandExecutor`).

Python strings are modelled as `List Char` (sequences of code points),
Python lists as Lean lists, JSON values as the inductive `JVal`, and each
call to an external process as an explicit oracle input whose value decides
which branch of the embedded code runs.  Terminal rendering and actual
subprocess spawning are outside the model; what each oracle answer causes
the program to do is modelled faithfully, branch by branch. -/

set_option autoImplicit false

namespace ClaudeTools

/-- Python strings are sequences of code points. -/
abbrev Msg := List Char

/-- `ClaudeParser.add_message` (voice/application/claude_parser.py):

```python
def add_message(self, message):
    self.message_history.append(message)
    if len(self.message_history) > self.context_size:
        self.message_history = self.message_history[-self.context_size:]
```

Python's `xs[-n:]` (for `n > 0`) is the suffix of the last `n` elements,
i.e. `drop (len - n)`. -/
def add_message (context_size : Nat) (history : List Msg) (message : Msg) : List Msg :=
  if (history ++ [message]).length > context_size then
    (history ++ [message]).drop ((history ++ [message]).length - context_size)
  else
    history ++ [message]

/-- The last `n` elements of a list (Python's `xs[-n:]` for `0 < n`). -/
def lastN {α : Type} (n : Nat) (l : List α) : List α :=
  l.drop (l.length - n)

/-- Python's `s.startswith(pre)`. -/
def startswith (s pre : Msg) : Bool :=
  match pre, s with
  | [], _ => true
  | _ :: _, [] => false
  | p :: ps, c :: cs => p = c && startswith cs ps

/-- `FileWatcher.extract_new_content` (voice/application/file_watcher.py):

```python
def extract_new_content(self, current_content):
    if current_content.startswith(self.last_content):
        return current_content[len(self.last_content):]
    return current_content
```
-/
def extract_new_content (last_content current_content : Msg) : Msg :=
  if startswith current_content last_content then
    current_content.drop last_content.length
  else
    current_content

/-- JSON values, as produced by `json.loads` on the external CLI's output. -/
inductive JVal where
  | null
  | bool (b : Bool)
  | num (n : Int)
  | str (s : Msg)
  | arr (elts : List JVal)
  | obj (fields : List (Msg × JVal))

/-- Python truthiness (`if value:`) on a JSON value: `None`, `False`, `0`,
`""`, `[]` and `{}` are falsy, everything else truthy. -/
def jTruthy : JVal → Bool
  | .null => false
  | .bool b => b
  | .num n => n != 0
  | .str s => !s.isEmpty
  | .arr xs => !xs.isEmpty
  | .obj kvs => !kvs.isEmpty

/-- Python's `d.get(key, default)` on a dict (keys are unique, so the first
match is the binding). -/
def jget (kvs : List (Msg × JVal)) (key : Msg) (dflt : JVal) : JVal :=
  match kvs.find? (fun kv => decide (kv.1 = key)) with
  | some kv => kv.2
  | none => dflt

/-- A parsed command (voice/domain/models.py, `Command` dataclass).  The
`type` and `args` fields hold whatever JSON values the payload carried. -/
structure Command where
  type : JVal
  args : JVal

/-- Parsed voice input (voice/domain/models.py, `ParsedInput` dataclass). -/
structure ParsedInput where
  session_prompt : JVal
  commands : List Command

/-- One element of the `commands` list inside `ParsedInput.from_dict`:
`Command(type=cmd.get("type", ""), args=cmd.get("args", {}))`.  Calling
`.get` on anything that is not a dict raises, which the model signals with
`Except.error`. -/
def commandFromDict : JVal → Except Unit Command
  | .obj kvs => .ok ⟨jget kvs "type".data (.str []), jget kvs "args".data (.obj [])⟩
  | _ => .error ()

/-- `ParsedInput.from_dict` (voice/domain/models.py).  The comprehension
`[Command(...) for cmd in data.get("commands", [])]` iterates the value of
`"commands"`; iterating an empty string or empty dict yields no elements,
iterating any other non-list value raises (as does `.get` on its
elements), modelled by `Except.error`.  A raised exception is what the
caller `ClaudeParser.parse` catches. -/
def from_dict : JVal → Except Unit ParsedInput
  | .obj kvs =>
    match jget kvs "commands".data (.arr []) with
    | .arr xs =>
      match xs.mapM commandFromDict with
      | .ok cmds => .ok ⟨jget kvs "sessionPrompt".data .null, cmds⟩
      | .error e => .error e
    | .str [] => .ok ⟨jget kvs "sessionPrompt".data .null, []⟩
    | .obj [] => .ok ⟨jget kvs "sessionPrompt".data .null, []⟩
    | _ => .error ()
  | _ => .error ()

/-- The possible outcomes of `ClaudeParser._call_claude`
(voice/application/claude_parser.py).  The function returns `None` when the
subprocess exits non-zero (`errExit`), when the 30-second bound fires
(`timeout`), when stdout is not valid JSON (`badJson`), or when any other
exception is raised while extracting `structured_output` (`exn`); on
success it returns the structured payload (`ok`). -/
inductive CallResult where
  | errExit
  | timeout
  | badJson
  | exn
  | ok (d : JVal)

/-- The result value of `ClaudeParser.parse` as a function of the call
outcome.  A falsy payload fails the `if result:` test; a successful payload
is passed to `ParsedInput.from_dict`, whose exception is caught by the
surrounding `try`/`except` and converted to `None`. -/
def parse_output : CallResult → Option ParsedInput
  | .ok d =>
    if jTruthy d then
      match from_dict d with
      | .ok p => some p
      | .error _ => none
    else
      none
  | _ => none

/-- `ClaudeParser.parse` (voice/application/claude_parser.py): first
`add_message` appends the latest message to the rolling history (trimming
to `context_size`), then the prompt is built and the external CLI invoked;
the pair holds the history after the call and the returned value. -/
def parse (context_size : Nat) (history : List Msg) (latest_message : Msg)
    (call : CallResult) : List Msg × Option ParsedInput :=
  (add_message context_size history latest_message, parse_output call)

/-- `parse_output call = none` exactly when the call failed (error, timeout,
bad output, exception), its payload was falsy, or `from_dict` raised a
schema mismatch. -/
def parseFails : CallResult → Bool
  | .ok d =>
    !jTruthy d ||
      (match from_dict d with
       | .ok _ => false
       | .error _ => true)
  | _ => true

/-- The externally visible side effects of one `FileWatcher.process_input`
call: pasting text into the terminal (`send_to_terminal`) and running a
command through `CommandExecutor.execute`. -/
inductive Action where
  | sendTerminal (text : JVal)
  | runCommand (cmd : Command)

/-- `FileWatcher.process_input` (voice/application/file_watcher.py): if the
parser returned `None`, the raw text is sent to the terminal verbatim;
otherwise every parsed command is executed in order and then the session
prompt, if truthy, is sent to the terminal. -/
def process_input (text : Msg) (parsed : Option ParsedInput) : List Action :=
  match parsed with
  | none => [.sendTerminal (.str text)]
  | some p =>
    p.commands.map Action.runCommand ++
      (if jTruthy p.session_prompt then [.sendTerminal p.session_prompt] else [])

/-- What one poll of the watched file can observe: the existence check
fails (`missing`), the file exists but `read_file()` returns `None` because
the read raised (`unreadable`), or the full content is read (`content`). -/
inductive ReadResult where
  | missing
  | unreadable
  | content (text : Msg)
deriving DecidableEq

/-- The mutable state of a `FileWatcher` together with its parser:
`self.last_content` and `self.parser.message_history`. -/
structure WatchState where
  last_content : Msg
  history : List Msg

/-- The result of one iteration of the `FileWatcher.watch` loop: the state
afterwards, the external actions performed, and whether the iteration
reaches the `time.sleep(interval)` at the bottom of the loop body. -/
structure TickOutcome where
  state : WatchState
  actions : List Action
  sleeps : Bool

/-- One iteration of the `FileWatcher.watch` loop
(voice/application/file_watcher.py):

```python
if not self.file_path.exists():
    self.log("File does not exist")
else:
    content = self.read_file()
    if content is None:
        continue
    if content != self.last_content and content:
        new_text = self.extract_new_content(content)
        self.process_input(new_text)
        self.last_content = content
    else:
        self.log("No change detected")
time.sleep(interval)
```

The `continue` on an unreadable file skips the sleep; every other path
falls through to it. -/
def watch_tick (st : WatchState) (r : ReadResult) (call : CallResult) : TickOutcome :=
  match r with
  | .missing => ⟨st, [], true⟩
  | .unreadable => ⟨st, [], false⟩
  | .content c =>
    if c ≠ st.last_content ∧ c ≠ [] then
      ⟨⟨c, (parse 10 st.history (extract_new_content st.last_content c) call).1⟩,
       process_input (extract_new_content st.last_content c)
         (parse 10 st.history (extract_new_content st.last_content c) call).2,
       true⟩
    else
      ⟨st, [], true⟩

/-- Python's `s.split("/")`: the list of path components of a path
string. -/
def splitPath : Msg → List Msg
  | [] => [[]]
  | c :: cs =>
    match splitPath cs with
    | [] => [[c]]
    | g :: gs => if c = '/' then [] :: g :: gs else (c :: g) :: gs

/-- `Path(path).expanduser()`, on path components: a leading `~` component
is replaced by the home directory's components. -/
def expandUser (home : List Msg) (comps : List Msg) : List Msg :=
  match comps with
  | t :: rest => if t = "~".data then home ++ rest else comps
  | [] => comps

/-- The `"*" in str(path)` test of `CommandExecutor._open_file`. -/
def hasStar (s : Msg) : Bool :=
  s.contains '*'

/-- `fnmatch`-style name matching for the single wildcard `*` (matching
any, possibly empty, run of characters), as used by `Path.glob` on a
pattern without path separators. -/
def matchGlob (p s : Msg) : Bool :=
  match p, s with
  | [], [] => true
  | [], _ :: _ => false
  | pc :: ps, [] => decide (pc = '*') && matchGlob ps []
  | pc :: ps, c :: ss =>
    if pc = '*' then matchGlob ps (c :: ss) || matchGlob (pc :: ps) ss
    else decide (pc = c) && matchGlob ps ss
termination_by (s.length, p.length)

/-- True when the name's leading character is a dot (a hidden file). -/
def headIsDot : Msg → Bool
  | [] => false
  | c :: _ => decide (c = '.')

/-- `Path.glob`'s per-name match: a hidden name is only matched by a
pattern that itself starts with a dot. -/
def globNameMatch (pattern name : Msg) : Bool :=
  if headIsDot name && !headIsDot pattern then false
  else matchGlob pattern name

/-- `parent.glob(pattern)` over an abstract filesystem `fs` (the list of
existing paths, each as its components, in directory order): the entries
of the literal directory `parent` whose final name matches `pattern`. -/
def glob (fs : List (List Msg)) (parent : List Msg) (pattern : Msg) : List (List Msg) :=
  fs.filter (fun f =>
    decide (f.dropLast = parent) && globNameMatch pattern (f.getLast?.getD []))

/-- `CommandExecutor._open_file` (voice/application/command_executor.py),
abstracting the filesystem as the list `fs` of existing paths:

```python
path = args.get("path")
app = args.get("app")
if not path:
    return False
expanded_path = Path(path).expanduser()
if "*" in str(path):
    matches = list(expanded_path.parent.glob(expanded_path.name))
    if matches:
        expanded_path = matches[0]
    else:
        return False
if not expanded_path.exists():
    return False
subprocess.run([...])  # "open" / "open -a app"
return True
```

`args.get` on a non-dict and `Path(...)` on a truthy non-string raise, which
`CommandExecutor.execute` would catch; the model signals that with
`Except.error`.  The optional `app` argument only selects which `open`
invocation runs and does not affect the returned value. -/
def open_file (home : List Msg) (fs : List (List Msg)) (args : JVal) :
    Except Unit Bool :=
  match args with
  | .obj kvs =>
    let pathJ := jget kvs "path".data .null
    if ¬ jTruthy pathJ then .ok false
    else
      match pathJ with
      | .str s =>
        let expanded := expandUser home (splitPath s)
        if hasStar s then
          match glob fs expanded.dropLast (expanded.getLast?.getD []) with
          | [] => .ok false
          | m :: _ => if m ∈ fs then .ok true else .ok false
        else
          if expanded ∈ fs then .ok true else .ok false
      | _ => .error ()
  | _ => .error ()

/-- Componentwise glob matching of a whole path pattern against a concrete
path: the reading of the specification under which a wildcard may appear in
any component of `path`, not only the final one. -/
def pathMatchesGlob : List Msg → List Msg → Bool
  | [], [] => true
  | p :: ps, c :: cs => matchGlob p c && pathMatchesGlob ps cs
  | _, _ => false

/-- A phase entry of a status report (`phases` array of the
`STATUS_SCHEMA` in phased-implementation.py). -/
structure Phase where
  description : String
  status : String
deriving DecidableEq

/-- The oracle input consumed by one iteration of the phase-runner main
loop: the elapsed wall-clock seconds observed at the top of the iteration,
the outcome of the `execute_phase` call (`none` models a raised
exception), and the outcome of the follow-up `get_phase_status` call. -/
structure IterOracle where
  elapsed : Nat
  execResult : Option Bool
  statusReport : Option (List Phase × Int)

/-- An external assistant invocation issued by the phase runner. -/
inductive ExtCall where
  | execPhase (idx : Int) (description : String)
  | fetchStatus
deriving DecidableEq

/-- How a run of the phase-runner main loop ends.  `allComplete` and
`timeLimit` fall through to the final summary and exit 0; `failed c` is
`sys.exit(c)`; `crashed` is an uncaught exception (Python exits 1);
`pending` is the model artifact of an oracle trace that ends before the
loop does. -/
inductive RunOutcome where
  | allComplete
  | timeLimit
  | failed (code : Nat)
  | crashed
  | pending
deriving DecidableEq

/-- Python list indexing `l[i]`: non-negative indexes below the length,
negative indexes from `-len` upward counting from the end; anything else
raises `IndexError` (`none`). -/
def pyGet {α : Type} (l : List α) (i : Int) : Option α :=
  if 0 ≤ i then l.get? i.toNat
  else if (l.length : Int) + i < 0 then none
  else l.get? ((l.length : Int) + i).toNat

/-- The process exit code of each terminal outcome. -/
def exitCode : RunOutcome → Option Nat
  | .allComplete => some 0
  | .timeLimit => some 0
  | .failed c => some c
  | .crashed => some 1
  | .pending => none

/-- The main loop of `phased-implementation.py` (`main`, lines 321–375),
driven by one `IterOracle` per iteration:

```python
while next_phase_idx != -1:
    if time.time() - script_start >= max_runtime_seconds:
        break                                   # "Time limit reached"
    current_phase = phases[next_phase_idx]      # Python indexing
    try:
        result = execute_phase(...)
    except Exception:
        sys.exit(1)
    if not result.get('success', False):
        sys.exit(1)
    try:
        status = get_phase_status(planning_doc)
    except Exception:
        sys.exit(1)
    phases = status['phases']
    next_phase_idx = status['nextPhaseIndex']
```

The returned list records, in order, the external assistant calls the loop
issues. -/
def runLoop (phases : List Phase) (nextPhaseIdx : Int) (budget : Nat) :
    List IterOracle → RunOutcome × List ExtCall
  | [] => if nextPhaseIdx = -1 then (.allComplete, []) else (.pending, [])
  | o :: rest =>
    if nextPhaseIdx = -1 then (.allComplete, [])
    else if budget ≤ o.elapsed then (.timeLimit, [])
    else
      match pyGet phases nextPhaseIdx with
      | none => (.crashed, [])
      | some ph =>
        match o.execResult with
        | none => (.failed 1, [.execPhase nextPhaseIdx ph.description])
        | some false => (.failed 1, [.execPhase nextPhaseIdx ph.description])
        | some true =>
          match o.statusReport with
          | none =>
            (.failed 1, [.execPhase nextPhaseIdx ph.description, .fetchStatus])
          | some (phases2, idx2) =>
            let r := runLoop phases2 idx2 budget rest
            (r.1, .execPhase nextPhaseIdx ph.description :: .fetchStatus :: r.2)

end ClaudeTools

/-- Eleven distinct messages, for instantiating the capacity claims. -/
def msgs11 : List ClaudeTools.Msg :=
  ["m01".data, "m02".data, "m03".data, "m04".data, "m05".data, "m06".data,
   "m07".data, "m08".data, "m09".data, "m10".data, "m11".data]

namespace ClaudeTools

theorem startswith_true_iff (s pre : Msg) :
    startswith s pre = true ↔ pre <+: s := by
  induction pre generalizing s with
  | nil => simp [startswith]
  | cons p ps ih =>
    cases s with
    | nil => simp [startswith]
    | cons c cs =>
      simp only [startswith, Bool.and_eq_true, decide_eq_true_eq, ih,
        List.cons_prefix_cons]

theorem add_message_eq_lastN (cap : Nat) (h : List Msg) (m : Msg) :
    add_message cap h m = lastN cap (h ++ [m]) := by
  unfold add_message lastN
  split
  · rfl
  · next hc =>
    have h0 : (h ++ [m]).length - cap = 0 := by
      simp only [Nat.not_lt] at hc
      omega
    rw [h0, List.drop_zero]

theorem length_lastN {α : Type} (n : Nat) (l : List α) :
    (lastN n l).length = min n l.length := by
  simp [lastN, List.length_drop]; omega

theorem lastN_append_lastN {α : Type} (n : Nat) (l ms : List α) :
    lastN n (lastN n l ++ ms) = lastN n (l ++ ms) := by
  unfold lastN
  rcases le_or_lt n l.length with hn | hn
  · have hdl : (l.drop (l.length - n)).length = n := by
      simp [List.length_drop]; omega
    rw [List.drop_append_eq_append_drop, List.drop_append_eq_append_drop,
      List.drop_drop]
    congr 1
    · congr 1
      simp only [List.length_append, hdl, List.length_drop]
      omega
    · congr 1
      simp only [List.length_append, hdl, List.length_drop]
      omega
  · have h0 : l.length - n = 0 := by omega
    rw [h0, List.drop_zero]

theorem foldl_add_message (cap : Nat) (msgs : List Msg) :
    ∀ h : List Msg, h.length ≤ cap →
      msgs.foldl (add_message cap) h = lastN cap (h ++ msgs) := by
  induction msgs with
  | nil =>
    intro h hle
    have : h.length - cap = 0 := by omega
    simp [lastN, this]
  | cons m ms ih =>
    intro h hle
    have hlen : (add_message cap h m).length ≤ cap := by
      rw [add_message_eq_lastN, length_lastN]
      omega
    calc (m :: ms).foldl (add_message cap) h
        = ms.foldl (add_message cap) (add_message cap h m) := rfl
      _ = lastN cap (add_message cap h m ++ ms) := ih _ hlen
      _ = lastN cap (lastN cap (h ++ [m]) ++ ms) := by
          rw [add_message_eq_lastN]
      _ = lastN cap ((h ++ [m]) ++ ms) := lastN_append_lastN cap _ ms
      _ = lastN cap (h ++ m :: ms) := by simp

theorem mem_add_message (cap : Nat) (h : List Msg) (m : Msg) (hcap : 1 ≤ cap) :
    m ∈ add_message cap h m := by
  rw [add_message_eq_lastN]
  unfold lastN
  rw [List.drop_append_eq_append_drop]
  have h0 : (h ++ [m]).length - cap - h.length = 0 := by
    simp only [List.length_append, List.length_cons, List.length_nil]
    omega
  rw [h0, List.drop_zero]
  exact List.mem_append.mpr (Or.inr (List.mem_singleton.mpr rfl))

end ClaudeTools

/-- C2. For every pair of strings `old` and `new`, `extract_new_content`
with stored last content `old` applied to `new` returns `new[len(old):]`
(the unique suffix `t` with `old ++ t = new`) when `new` starts with `old`,
and returns `new` in full otherwise. -/
theorem C2_extract_new_content (old new : ClaudeTools.Msg) :
    (old <+: new →
       ClaudeTools.extract_new_content old new = new.drop old.length ∧
       old ++ ClaudeTools.extract_new_content old new = new) ∧
    (¬ old <+: new → ClaudeTools.extract_new_content old new = new) := by
  constructor
  · intro hpre
    have hs : ClaudeTools.startswith new old = true :=
      (ClaudeTools.startswith_true_iff new old).mpr hpre
    refine ⟨by simp [ClaudeTools.extract_new_content, hs], ?_⟩
    obtain ⟨t, rfl⟩ := hpre
    simp [ClaudeTools.extract_new_content, hs, List.drop_left]
  · intro hpre
    cases hsw : ClaudeTools.startswith new old with
    | false => simp [ClaudeTools.extract_new_content, hsw]
    | true =>
      exact absurd ((ClaudeTools.startswith_true_iff new old).mp hsw) hpre

/-- C2 witness. Concrete instance: content growing from `"hello"` to
`"hello world"` yields the delta `" world"`. -/
theorem C2_extract_new_content_witness :
    ("hello".data <+: "hello world".data →
       ClaudeTools.extract_new_content "hello".data "hello world".data =
         "hello world".data.drop "hello".data.length ∧
       "hello".data ++
         ClaudeTools.extract_new_content "hello".data "hello world".data =
           "hello world".data) ∧
    (¬ "hello".data <+: "hello world".data →
       ClaudeTools.extract_new_content "hello".data "hello world".data =
         "hello world".data) :=
  C2_extract_new_content "hello".data "hello world".data

/-- C4. For every sequence of messages added via `add_message` with
capacity 10, the history never exceeds 10 entries; after inserting the
11th message the history is exactly the 2nd through 11th messages in
insertion order, so (for pairwise-distinct messages) the 1st inserted
message is no longer present. -/
theorem C4_history_capacity (msgs : List ClaudeTools.Msg) :
    ((msgs.foldl (ClaudeTools.add_message 10) []).length ≤ 10) ∧
    (msgs.length = 11 →
      msgs.foldl (ClaudeTools.add_message 10) [] = msgs.drop 1 ∧
      (msgs.Nodup → ∀ m0 ∈ msgs.take 1,
        m0 ∉ msgs.foldl (ClaudeTools.add_message 10) [])) := by
  have h := ClaudeTools.foldl_add_message 10 msgs [] (by simp)
  rw [List.nil_append] at h
  refine ⟨?_, ?_⟩
  · rw [h, ClaudeTools.length_lastN]; omega
  · intro h11
    have hdrop : msgs.foldl (ClaudeTools.add_message 10) [] = msgs.drop 1 := by
      rw [h]
      unfold ClaudeTools.lastN
      rw [h11]
    refine ⟨hdrop, ?_⟩
    intro hnd m0 hm0
    rw [hdrop]
    cases msgs with
    | nil => simp at h11
    | cons a t =>
      simp only [List.take_succ_cons, List.take_zero, List.mem_singleton] at hm0
      subst hm0
      simpa using (List.nodup_cons.mp hnd).1

/-- C4 witness. With the eleven concrete messages of `msgs11`, the final
history has at most 10 entries, equals the last ten messages in order, and
no longer contains the first message. -/
theorem C4_history_capacity_witness :
    ((msgs11.foldl (ClaudeTools.add_message 10) []).length ≤ 10) ∧
    msgs11.foldl (ClaudeTools.add_message 10) [] = msgs11.drop 1 ∧
    "m01".data ∉ msgs11.foldl (ClaudeTools.add_message 10) [] := by
  have h := C4_history_capacity msgs11
  have h2 := h.2 (by decide)
  exact ⟨h.1, h2.1, h2.2 (by decide) "m01".data (by decide)⟩

/-- C10. For every input message, `ClaudeParser.parse` leaves the rolling
message history equal to `add_message` of the previous history and the
message — identically for every call outcome (success, invocation error,
timeout, schema mismatch) — and the message occupies a slot of the
10-message window after the call. -/
theorem C10_parse_history_effect (hist : List ClaudeTools.Msg)
    (msg : ClaudeTools.Msg) (call : ClaudeTools.CallResult) :
    (ClaudeTools.parse 10 hist msg call).1 =
      ClaudeTools.add_message 10 hist msg ∧
    msg ∈ (ClaudeTools.parse 10 hist msg call).1 :=
  ⟨rfl, ClaudeTools.mem_add_message 10 hist msg (by omega)⟩

/-- C7. Every invocation error, timeout, or schema mismatch inside
`ClaudeParser.parse` is caught and converted to a `None` result, and
whenever `parse` returns `None` the watcher forwards the raw delta text
verbatim to the terminal-relay action and dispatches no command. -/
theorem C7_parse_error_policy (hist : List ClaudeTools.Msg)
    (msg : ClaudeTools.Msg) (call : ClaudeTools.CallResult) :
    (ClaudeTools.parseFails call = true →
      (ClaudeTools.parse 10 hist msg call).2 = none) ∧
    ((ClaudeTools.parse 10 hist msg call).2 = none →
      ClaudeTools.process_input msg (ClaudeTools.parse 10 hist msg call).2 =
        [ClaudeTools.Action.sendTerminal (ClaudeTools.JVal.str msg)]) := by
  constructor
  · intro hf
    cases call with
    | ok d =>
      by_cases hT : ClaudeTools.jTruthy d
      · cases hfd : ClaudeTools.from_dict d with
        | ok p =>
          exfalso
          simp [ClaudeTools.parseFails, hT, hfd] at hf
        | error e =>
          simp [ClaudeTools.parse, ClaudeTools.parse_output, hT, hfd]
      · simp [ClaudeTools.parse, ClaudeTools.parse_output, hT]
    | errExit => rfl
    | timeout => rfl
    | badJson => rfl
    | exn => rfl
  · intro hnone
    rw [hnone]
    rfl

/-- C7 witness. A timed-out call on the message `"open the file"` with an
empty history yields `None`, and the watcher then relays exactly that raw
text to the terminal. -/
theorem C7_parse_error_policy_witness :
    (ClaudeTools.parse 10 [] "open the file".data
        ClaudeTools.CallResult.timeout).2 = none ∧
    ClaudeTools.process_input "open the file".data
        (ClaudeTools.parse 10 [] "open the file".data
          ClaudeTools.CallResult.timeout).2 =
      [ClaudeTools.Action.sendTerminal (ClaudeTools.JVal.str "open the file".data)] := by
  have h := C7_parse_error_policy [] "open the file".data .timeout
  exact ⟨h.1 rfl, h.2 (h.1 rfl)⟩

/-- C3 counterexample. A rewrite of the watched file to empty content is a
changed content, yet the tick leaves the stored last-seen content at its
old value and feeds nothing to the pipeline: the `and content` conjunct of
the guard in `FileWatcher.watch` rejects empty content, falsifying the
claim's "including a rewrite to empty content". -/
theorem C3_counterexample :
    "".data ≠ "abc".data ∧
    (ClaudeTools.watch_tick ⟨"abc".data, []⟩
        (ClaudeTools.ReadResult.content "".data)
        ClaudeTools.CallResult.errExit).state.last_content = "abc".data ∧
    (ClaudeTools.watch_tick ⟨"abc".data, []⟩
        (ClaudeTools.ReadResult.content "".data)
        ClaudeTools.CallResult.errExit).actions = [] :=
  ⟨by decide, rfl, rfl⟩

/-- C3 amended. On every watcher tick where the newly read content differs
from the previously observed content **and is nonempty**, the watcher
computes the delta, feeds it to the parser/dispatch pipeline, and sets the
stored last-seen content to the full new content, regardless of the parse
outcome; a rewrite to empty content is instead treated as "no change". -/
theorem C3_amended (st : ClaudeTools.WatchState) (c : ClaudeTools.Msg)
    (call : ClaudeTools.CallResult)
    (hne : c ≠ st.last_content) (hnonempty : c ≠ []) :
    (ClaudeTools.watch_tick st (.content c) call).state.last_content = c ∧
    (ClaudeTools.watch_tick st (.content c) call).state.history =
      ClaudeTools.add_message 10 st.history
        (ClaudeTools.extract_new_content st.last_content c) ∧
    (ClaudeTools.watch_tick st (.content c) call).actions =
      ClaudeTools.process_input
        (ClaudeTools.extract_new_content st.last_content c)
        (ClaudeTools.parse_output call) ∧
    (ClaudeTools.watch_tick st (.content c) call).sleeps = true := by
  simp [ClaudeTools.watch_tick, hne, hnonempty]
  exact ⟨rfl, rfl⟩

/-- C3 amended witness. Content growing from `"hello"` to `"hello world"`
under a failing (exception) call outcome: the delta is parsed, the actions
are the fallback relay of the delta, and last-seen becomes the full new
content. -/
theorem C3_amended_witness :
    (ClaudeTools.watch_tick ⟨"hello".data, []⟩
        (.content "hello world".data) .exn).state.last_content =
      "hello world".data ∧
    (ClaudeTools.watch_tick ⟨"hello".data, []⟩
        (.content "hello world".data) .exn).state.history =
      ClaudeTools.add_message 10 []
        (ClaudeTools.extract_new_content "hello".data "hello world".data) ∧
    (ClaudeTools.watch_tick ⟨"hello".data, []⟩
        (.content "hello world".data) .exn).actions =
      ClaudeTools.process_input
        (ClaudeTools.extract_new_content "hello".data "hello world".data)
        (ClaudeTools.parse_output .exn) ∧
    (ClaudeTools.watch_tick ⟨"hello".data, []⟩
        (.content "hello world".data) .exn).sleeps = true :=
  C3_amended ⟨"hello".data, []⟩ "hello world".data .exn (by decide) (by decide)

/-- C9 counterexample. An iteration where the file exists but reading it
fails takes the `continue` branch of `FileWatcher.watch` and skips the
`time.sleep(interval)`, so the next read happens without the interval
wait — falsifying "every iteration is followed by a sleep". -/
theorem C9_counterexample :
    (ClaudeTools.watch_tick ⟨"abc".data, []⟩
        ClaudeTools.ReadResult.unreadable
        ClaudeTools.CallResult.errExit).sleeps = false := rfl

/-- C9 amended. Every iteration of the watch loop — file missing,
unchanged, or changed — is followed by the interval sleep, except an
iteration where the file exists but reading it fails: that iteration hits
`continue` and re-reads immediately with no sleep. -/
theorem C9_amended (st : ClaudeTools.WatchState) (r : ClaudeTools.ReadResult)
    (call : ClaudeTools.CallResult) :
    (ClaudeTools.watch_tick st r call).sleeps =
      decide (r ≠ ClaudeTools.ReadResult.unreadable) := by
  cases r with
  | missing => rfl
  | unreadable => rfl
  | content c =>
    simp only [ClaudeTools.watch_tick]
    split <;> simp

namespace ClaudeTools

theorem pyGet_none {α : Type} (l : List α) (i : Int)
    (h : (l.length : Int) ≤ i ∨ i < -(l.length : Int)) :
    pyGet l i = none := by
  unfold pyGet
  rcases h with h | h
  · have h0 : 0 ≤ i := le_trans (Int.ofNat_nonneg _) h
    rw [if_pos h0]
    apply List.get?_eq_none.mpr
    omega
  · have h0 : ¬ 0 ≤ i := by omega
    rw [if_neg h0, if_pos (by omega)]

end ClaudeTools

/-- C1 counterexample. The status report `nextPhaseIndex = -2` over two
phases is out of range (neither `-1` nor a valid index `0 ≤ i < 2`), yet
the runner does not halt: Python's negative indexing makes
`phases[-2]` resolve to phase 0, which the loop then executes. -/
theorem C1_counterexample :
    ((-2 : Int) ≠ -1) ∧ ¬ (0 ≤ (-2 : Int)) ∧
    ClaudeTools.runLoop
        [⟨"phase zero", "pending"⟩, ⟨"phase one", "pending"⟩] (-2) 3600
        [⟨0, some true,
          some ([⟨"phase zero", "completed"⟩, ⟨"phase one", "pending"⟩], -1)⟩] =
      (ClaudeTools.RunOutcome.allComplete,
       [ClaudeTools.ExtCall.execPhase (-2) "phase zero",
        ClaudeTools.ExtCall.fetchStatus]) :=
  ⟨by decide, by decide, rfl⟩

/-- C1 amended. For a report with `nextPhaseIndex ≠ -1` that is out of
range on the high side (`≥ len(phases)`) or below `-len(phases)`, the
lookup `phases[next_phase_idx]` raises an uncaught `IndexError` and the
runner halts without executing any phase; a negative value in
`[-len(phases), -2]`, however, is interpreted by Python's negative
indexing and the runner executes that phase instead of halting. -/
theorem C1_amended (phases : List ClaudeTools.Phase) (idx : Int)
    (budget : Nat) (o : ClaudeTools.IterOracle)
    (rest : List ClaudeTools.IterOracle)
    (hne : idx ≠ -1) (htime : o.elapsed < budget)
    (hout : (phases.length : Int) ≤ idx ∨ idx < -(phases.length : Int)) :
    ClaudeTools.runLoop phases idx budget (o :: rest) =
      (ClaudeTools.RunOutcome.crashed, []) := by
  have hnotle : ¬ budget ≤ o.elapsed := by omega
  have hnone := ClaudeTools.pyGet_none phases idx hout
  simp [ClaudeTools.runLoop, hne, hnotle, hnone]

/-- C1 amended witness. Index 5 into a single-phase list crashes the
runner before any phase executes. -/
theorem C1_amended_witness :
    ClaudeTools.runLoop [⟨"phase zero", "pending"⟩] 5 3600
        [⟨0, some true, none⟩] = (ClaudeTools.RunOutcome.crashed, []) :=
  C1_amended _ _ _ _ _ (by decide) (by decide) (Or.inl (by decide))

/-- C5. Whenever a phase execution returns `success: false` or the
execution call throws, the runner terminates with exit code 1, having
issued exactly that one execution call: no retry of the failed phase and
no further phase or status call. -/
theorem C5_failure_halts (phases : List ClaudeTools.Phase) (idx : Int)
    (budget : Nat) (o : ClaudeTools.IterOracle)
    (rest : List ClaudeTools.IterOracle) (ph : ClaudeTools.Phase)
    (hne : idx ≠ -1) (htime : o.elapsed < budget)
    (hph : ClaudeTools.pyGet phases idx = some ph)
    (hfail : o.execResult = some false ∨ o.execResult = none) :
    ClaudeTools.runLoop phases idx budget (o :: rest) =
      (ClaudeTools.RunOutcome.failed 1,
       [ClaudeTools.ExtCall.execPhase idx ph.description]) ∧
    ClaudeTools.exitCode
        (ClaudeTools.runLoop phases idx budget (o :: rest)).1 = some 1 := by
  have hnotle : ¬ budget ≤ o.elapsed := by omega
  rcases hfail with hf | hf <;>
    simp [ClaudeTools.runLoop, hne, hnotle, hph, hf, ClaudeTools.exitCode]

/-- C5 witness. A phase that reports `success: false` stops the run with
exit code 1 after its single execution call. -/
theorem C5_failure_halts_witness :
    ClaudeTools.runLoop [⟨"fix bug", "pending"⟩] 0 3600
        [⟨10, some false, none⟩] =
      (ClaudeTools.RunOutcome.failed 1,
       [ClaudeTools.ExtCall.execPhase 0 "fix bug"]) ∧
    ClaudeTools.exitCode
        (ClaudeTools.runLoop [⟨"fix bug", "pending"⟩] 0 3600
          [⟨10, some false, none⟩]).1 = some 1 :=
  C5_failure_halts _ _ _ _ _ ⟨"fix bug", "pending"⟩ (by decide) (by decide)
    rfl (Or.inl rfl)

/-- C6. Whenever elapsed time is at least the budget at the top of a loop
iteration (with work remaining), the runner stops without issuing any
external call, in the time-limit terminal state: exit code 0, distinct
from the all-complete and failed outcomes. -/
theorem C6_time_limit (phases : List ClaudeTools.Phase) (idx : Int)
    (budget : Nat) (o : ClaudeTools.IterOracle)
    (rest : List ClaudeTools.IterOracle)
    (hne : idx ≠ -1) (htime : budget ≤ o.elapsed) :
    ClaudeTools.runLoop phases idx budget (o :: rest) =
      (ClaudeTools.RunOutcome.timeLimit, []) ∧
    ClaudeTools.exitCode ClaudeTools.RunOutcome.timeLimit = some 0 ∧
    ClaudeTools.RunOutcome.timeLimit ≠ ClaudeTools.RunOutcome.allComplete ∧
    ∀ c : Nat,
      ClaudeTools.RunOutcome.timeLimit ≠ ClaudeTools.RunOutcome.failed c := by
  refine ⟨by simp [ClaudeTools.runLoop, hne, htime], rfl, by simp, fun c => by simp⟩

/-- C6 witness. With a 60-second budget and 60 seconds elapsed at the top
of the iteration, the runner stops in the time-limit state with no calls
issued. -/
theorem C6_time_limit_witness :
    ClaudeTools.runLoop [⟨"fix bug", "pending"⟩] 0 60
        [⟨60, some true, none⟩] =
      (ClaudeTools.RunOutcome.timeLimit, []) ∧
    ClaudeTools.exitCode ClaudeTools.RunOutcome.timeLimit = some 0 ∧
    ClaudeTools.RunOutcome.timeLimit ≠ ClaudeTools.RunOutcome.allComplete ∧
    ∀ c : Nat,
      ClaudeTools.RunOutcome.timeLimit ≠ ClaudeTools.RunOutcome.failed c :=
  C6_time_limit _ _ _ _ _ (by decide) (by decide)

namespace ClaudeTools

theorem matchGlob_star_any (s : Msg) : matchGlob ['*'] s = true := by
  induction s with
  | nil => simp [matchGlob]
  | cons c ss ih => simp [matchGlob, ih]

theorem matchGlob_self (s : Msg) (h : '*' ∉ s) : matchGlob s s = true := by
  induction s with
  | nil => simp [matchGlob]
  | cons c ss ih =>
    have hc : c ≠ '*' := by
      rintro rfl
      exact h (List.mem_cons_self _ _)
    have hss : '*' ∉ ss := fun m => h (List.mem_cons_of_mem _ m)
    simp [matchGlob, hc, ih hss]

end ClaudeTools

/-- C8 evaluation at the failing input. With home directory `/Users/u` and
the file `/Users/u/Desktop/doc-drafts/2024/blog.md` present on disk, an
`openFile` command with `args.path = "~/Desktop/doc-drafts/*/blog.md"`
returns failure: `_open_file` globs only the final component (`blog.md`)
against the literal, nonexistent parent directory
`.../doc-drafts/*`, finds no matches, and returns `False` — even though
the path pattern, read componentwise with the wildcard allowed in any
component, matches the existing file. -/
theorem C8_openFile_wildcard_bug :
    ClaudeTools.open_file (ClaudeTools.splitPath "/Users/u".data)
        [ClaudeTools.splitPath "/Users/u/Desktop/doc-drafts/2024/blog.md".data]
        (ClaudeTools.JVal.obj
          [("path".data,
            ClaudeTools.JVal.str "~/Desktop/doc-drafts/*/blog.md".data)]) =
      .ok false ∧
    ClaudeTools.pathMatchesGlob
        (ClaudeTools.expandUser (ClaudeTools.splitPath "/Users/u".data)
          (ClaudeTools.splitPath "~/Desktop/doc-drafts/*/blog.md".data))
        (ClaudeTools.splitPath "/Users/u/Desktop/doc-drafts/2024/blog.md".data) =
      true := by
  constructor
  · rfl
  · have e1 : ClaudeTools.expandUser (ClaudeTools.splitPath "/Users/u".data)
        (ClaudeTools.splitPath "~/Desktop/doc-drafts/*/blog.md".data) =
        [[], "Users".data, "u".data, "Desktop".data, "doc-drafts".data,
         "*".data, "blog.md".data] := rfl
    have e2 : ClaudeTools.splitPath
        "/Users/u/Desktop/doc-drafts/2024/blog.md".data =
        [[], "Users".data, "u".data, "Desktop".data, "doc-drafts".data,
         "2024".data, "blog.md".data] := rfl
    rw [e1, e2]
    simp only [ClaudeTools.pathMatchesGlob]
    rw [ClaudeTools.matchGlob_star_any,
      ClaudeTools.matchGlob_self [] (by decide),
      ClaudeTools.matchGlob_self ['U', 's', 'e', 'r', 's'] (by decide),
      ClaudeTools.matchGlob_self ['u'] (by decide),
      ClaudeTools.matchGlob_self ['D', 'e', 's', 'k', 't', 'o', 'p'] (by decide),
      ClaudeTools.matchGlob_self
        ['d', 'o', 'c', '-', 'd', 'r', 'a', 'f', 't', 's'] (by decide),
      ClaudeTools.matchGlob_self ['b', 'l', 'o', 'g', '.', 'm', 'd'] (by decide)]
    rfl
